import Mathlib

/-!
Verification development for the training driver `tools/train_net.py` of the
Motionformer repository.

The file gives a shallow embedding of the per-iteration training step of
`train_epoch` (gradient accumulation, mixed precision, gradient division),
of the per-epoch driver `train` (epoch range, precise batch-normalization
statistics recomputation, checkpoint/evaluation scheduling), of
`calculate_and_update_precise_bn`, and of the train meter lifecycle.
Gradients and parameter values are modelled as rationals; the model forward
pass is abstracted by the per-parameter gradient contribution of the batch
(`Option` marks parameters unused by the batch); the distributed no-sync
protocol and the mixed-precision scaler calls are recorded in an explicit
event trace so that ordering claims can be stated.
-/

set_option linter.all false

/-- Configuration fields of `cfg` read by the claims under study
(`NUM_SHARDS`, `TRAIN.BATCH_SIZE`, `GLOBAL_BATCH_SIZE`,
`SOLVER.USE_MIXED_PRECISION`, `BN.USE_PRECISE_STATS`,
`BN.NUM_BATCHES_PRECISE`, `SOLVER.MAX_EPOCH`). -/
structure Config where
  numShards : Nat
  trainBatchSize : Nat
  globalBatchSize : Nat
  useMixedPrecision : Bool
  usePreciseStats : Bool
  numBatchesPrecise : Nat
  maxEpoch : Nat
  deriving DecidableEq

/-- Line 55: `cur_global_batch_size = cfg.NUM_SHARDS * cfg.TRAIN.BATCH_SIZE`. -/
def curGlobalBatchSize (cfg : Config) : Nat :=
  cfg.numShards * cfg.trainBatchSize

/-- Line 56: `num_iters = cfg.GLOBAL_BATCH_SIZE // cur_global_batch_size`
(Python floor division). -/
def numIters (cfg : Config) : Nat :=
  cfg.globalBatchSize / curGlobalBatchSize cfg

/-- A learnable parameter: its name (as yielded by `model.named_parameters()`),
its value, and its gradient buffer (`none` models `param.grad is None`). -/
structure Param where
  name : String
  value : Rat
  grad : Option Rat
  deriving DecidableEq

/-- State of the mixed-precision `GradScaler`: the loss scale and whether
`unscale_` has already been applied for the current optimizer step. -/
structure ScalerState where
  scale : Rat
  unscaled : Bool
  deriving DecidableEq

/-- The mutable training state threaded through an epoch: the model
parameters and the gradient scaler. -/
structure TrainState where
  params : List Param
  scaler : ScalerState
  deriving DecidableEq

/-- Observable actions of one training iteration, in execution order.
`noSync` on forward/backward records that the pass ran inside
`model.no_sync()`; `scaled` records that the backward went through
`loss_scaler.scale(loss)`. -/
inductive Event where
  | forward (noSync : Bool)
  | backward (noSync : Bool) (scaled : Bool)
  | unscale
  | divideGrads (n : Nat)
  | scalerStep
  | scalerUpdate
  | optStep
  | zeroGrad
  deriving DecidableEq

/-- `optimizer.zero_grad()` on one parameter: an existing gradient buffer is
set to zero; a parameter that never received a gradient keeps `grad = None`
(PyTorch default behaviour of this code's era). -/
def zeroGradParam (p : Param) : Param :=
  { p with grad := p.grad.map (fun _ => (0 : Rat)) }

/-- `optimizer.zero_grad()` over all parameters. -/
def zeroGrad (ps : List Param) : List Param :=
  ps.map zeroGradParam

/-- `loss.backward()`: autograd accumulates each parameter's gradient
contribution from this batch into its `.grad` buffer, creating the buffer
when it is `None`; a parameter unused by the batch (`none` contribution) is
left untouched. -/
def backward : List (Option Rat) → List Param → List Param
  | _, [] => []
  | [], ps => ps
  | og :: gs, p :: ps =>
    (match og with
     | none => p
     | some gv => { p with grad := some (p.grad.getD 0 + gv) }) :: backward gs ps

/-- `loss_scaler.scale(loss)`: the gradient contributions of the batch are
multiplied by the current loss scale before accumulation. -/
def scaledContrib (sc : ScalerState) (g : List (Option Rat)) : List (Option Rat) :=
  g.map (Option.map (fun x => sc.scale * x))

/-- Divide every present gradient buffer by the scale factor. -/
def unscaleGrads (s : Rat) (ps : List Param) : List Param :=
  ps.map (fun p => { p with grad := p.grad.map (fun x => x / s) })

/-- `loss_scaler.unscale_(optimizer)`: divides the gradients by the loss
scale and marks the scaler as already unscaled for this step. -/
def scalerUnscale (sc : ScalerState) (ps : List Param) : ScalerState × List Param :=
  ({ sc with unscaled := true }, unscaleGrads sc.scale ps)

/-- `optimizer.step()` (plain SGD-shaped update with learning rate `lr`;
a parameter with `grad = None` is treated as zero gradient). -/
def optStep (lr : Rat) (ps : List Param) : List Param :=
  ps.map (fun p => { p with value := p.value - lr * p.grad.getD 0 })

/-- `loss_scaler.step(optimizer)`: unscales first when not yet unscaled,
then performs the optimizer step (infinite-gradient skipping is outside the
rational model). -/
def scalerStepFn (lr : Rat) (sc : ScalerState) (ps : List Param) : ScalerState × List Param :=
  if sc.unscaled then (sc, optStep lr ps)
  else
    ((scalerUnscale sc ps).1, optStep lr (scalerUnscale sc ps).2)

/-- `loss_scaler.update()`: the per-step unscaled flag is cleared (scale
growth is not modelled). -/
def scalerUpdateFn (sc : ScalerState) : ScalerState :=
  { sc with unscaled := false }

/-- Loop body of lines 147-154: `param.grad /= num_iters` when the gradient
is present, skip (no division) when `param.grad is None`. -/
def divideParamGrad (n : Nat) (p : Param) : Param :=
  match p.grad with
  | none => p
  | some g => { p with grad := some (g / (n : Rat)) }

/-- Lines 146-154: the `for name, param in model.named_parameters()` loop
dividing present gradients by `num_iters`. -/
def divideGrads (n : Nat) (ps : List Param) : List Param :=
  ps.map (divideParamGrad n)

/-- Lines 94-108 of `train_epoch`: the synchronized path taken when
`cur_global_batch_size >= cfg.GLOBAL_BATCH_SIZE`: forward and loss under
autocast, then zero_grad, (scaled) backward, and the optimizer step, taken
through the gradient scaler when mixed precision is enabled. -/
def syncStep (cfg : Config) (lr : Rat) (g : List (Option Rat)) (st : TrainState) :
    List Event × TrainState :=
  if cfg.useMixedPrecision then
    ([Event.forward false, Event.zeroGrad, Event.backward false true,
      Event.scalerStep, Event.scalerUpdate],
     { params := (scalerStepFn lr st.scaler
         (backward (scaledContrib st.scaler g) (zeroGrad st.params))).2,
       scaler := scalerUpdateFn (scalerStepFn lr st.scaler
         (backward (scaledContrib st.scaler g) (zeroGrad st.params))).1 })
  else
    ([Event.forward false, Event.zeroGrad, Event.backward false false, Event.optStep],
     { params := optStep lr (backward g (zeroGrad st.params)),
       scaler := st.scaler })

/-- Follows the spec's words (sections 4.1 and 8): "every iteration is a
normal synchronized step (forward → loss → backward → optimizer step,
optionally through a gradient scaler for mixed precision)", with no
accumulation across iterations: the step acts on this batch's gradients
alone, i.e. on freshly zeroed buffers. -/
def specSyncStep (cfg : Config) (lr : Rat) (g : List (Option Rat)) (st : TrainState) :
    TrainState :=
  if cfg.useMixedPrecision then
    { params := (scalerStepFn lr st.scaler
        (backward (scaledContrib st.scaler g) (zeroGrad st.params))).2,
      scaler := scalerUpdateFn (scalerStepFn lr st.scaler
        (backward (scaledContrib st.scaler g) (zeroGrad st.params))).1 }
  else
    { params := optStep lr (backward g (zeroGrad st.params)),
      scaler := st.scaler }

/-- Lines 110-162 of `train_epoch`: the gradient-accumulation path taken when
`cur_global_batch_size < cfg.GLOBAL_BATCH_SIZE`. Gradients are zeroed at
`cur_iter == 0`; an iteration with `(cur_iter + 1) % num_iters != 0` runs
forward and backward inside `model.no_sync()`; an iteration with
`(cur_iter + 1) % num_iters == 0` runs a synchronized forward and backward,
unscales when mixed precision, divides present gradients by `num_iters`,
steps the optimizer (through the scaler when mixed precision) and zeroes
the gradients. -/
def accumStep (cfg : Config) (lr : Rat) (curIter : Nat) (g : List (Option Rat))
    (st : TrainState) : List Event × TrainState :=
  if (curIter + 1) % numIters cfg ≠ 0 then
    ((if curIter = 0 then [Event.zeroGrad] else [])
       ++ [Event.forward true, Event.backward true cfg.useMixedPrecision],
     { params :=
         (if cfg.useMixedPrecision then
            backward (scaledContrib st.scaler g)
              (if curIter = 0 then zeroGrad st.params else st.params)
          else
            backward g (if curIter = 0 then zeroGrad st.params else st.params)),
       scaler := st.scaler })
  else
    if cfg.useMixedPrecision then
      ((if curIter = 0 then [Event.zeroGrad] else [])
         ++ [Event.forward false, Event.backward false true, Event.unscale,
             Event.divideGrads (numIters cfg), Event.scalerStep, Event.scalerUpdate,
             Event.zeroGrad],
       { params := zeroGrad
           (scalerStepFn lr (scalerUnscale st.scaler
               (backward (scaledContrib st.scaler g)
                 (if curIter = 0 then zeroGrad st.params else st.params))).1
             (divideGrads (numIters cfg)
               (scalerUnscale st.scaler
                 (backward (scaledContrib st.scaler g)
                   (if curIter = 0 then zeroGrad st.params else st.params))).2)).2,
         scaler := scalerUpdateFn
           (scalerStepFn lr (scalerUnscale st.scaler
               (backward (scaledContrib st.scaler g)
                 (if curIter = 0 then zeroGrad st.params else st.params))).1
             (divideGrads (numIters cfg)
               (scalerUnscale st.scaler
                 (backward (scaledContrib st.scaler g)
                   (if curIter = 0 then zeroGrad st.params else st.params))).2)).1 })
    else
      ((if curIter = 0 then [Event.zeroGrad] else [])
         ++ [Event.forward false, Event.backward false false,
             Event.divideGrads (numIters cfg), Event.optStep, Event.zeroGrad],
       { params := zeroGrad (optStep lr (divideGrads (numIters cfg)
           (backward g (if curIter = 0 then zeroGrad st.params else st.params)))),
         scaler := st.scaler })

/-- One iteration of the `for cur_iter, ... in enumerate(train_loader)` loop
of `train_epoch` (the backward-pass dispatch of lines 93-162): the
synchronized path when `cur_global_batch_size >= cfg.GLOBAL_BATCH_SIZE`,
the accumulation path otherwise. -/
def trainIter (cfg : Config) (lr : Rat) (curIter : Nat) (g : List (Option Rat))
    (st : TrainState) : List Event × TrainState :=
  if cfg.globalBatchSize ≤ curGlobalBatchSize cfg then syncStep cfg lr g st
  else accumStep cfg lr curIter g st

/-- Run the iterations of `train_epoch` over the remaining batches, with
`i` the index of the next batch (`cur_iter`). Returns the concatenated
event trace and the final training state. -/
def runItersFrom (cfg : Config) (lr : Rat) (i : Nat) (batches : List (List (Option Rat)))
    (st : TrainState) : List Event × TrainState :=
  match batches with
  | [] => ([], st)
  | b :: rest =>
    ((trainIter cfg lr i b st).1
       ++ (runItersFrom cfg lr (i + 1) rest (trainIter cfg lr i b st).2).1,
     (runItersFrom cfg lr (i + 1) rest (trainIter cfg lr i b st).2).2)

/-- The full iteration loop of `train_epoch` over the epoch's batches,
starting at `cur_iter = 0`. -/
def trainEpoch (cfg : Config) (lr : Rat) (batches : List (List (Option Rat)))
    (st : TrainState) : List Event × TrainState :=
  runItersFrom cfg lr 0 batches st

/-- Modelled from the spec: `update_bn_stats` (from the external `fvcore`
library, not part of this repository's sources) "runs a bounded number of
forward-only passes over a held-out loader to recompute exact (population,
not running-average) normalization statistics". Each loader element carries
the batch statistics (mean, variance) a forward pass would produce; the
function consumes at most `nIters` batches, replaces the running statistics
by the population average over the consumed batches, and returns the new
statistics together with the number of forward passes performed; with zero
consumed batches the statistics are left unchanged. -/
def update_bn_stats (stats : Rat × Rat) (batchStats : List (Rat × Rat)) (nIters : Nat) :
    (Rat × Rat) × Nat :=
  ((if (batchStats.take nIters).length = 0 then stats
    else (((batchStats.take nIters).map Prod.fst).sum / (batchStats.take nIters).length,
          ((batchStats.take nIters).map Prod.snd).sum / (batchStats.take nIters).length)),
   (batchStats.take nIters).length)

/-- Lines 377-398: `calculate_and_update_precise_bn(loader, model, num_iters,
use_gpu)` wraps the loader and calls `update_bn_stats(model, _gen_loader(),
num_iters)` (device transfer is not modelled). -/
def calculate_and_update_precise_bn (loaderStats : List (Rat × Rat)) (stats : Rat × Rat)
    (nIters : Nat) : (Rat × Rat) × Nat :=
  update_bn_stats stats loaderStats nIters

/-- Observable actions of one epoch of the `train` driver. -/
inductive EpochEvent where
  | trainPass (epoch : Nat)
  | preciseBN (passes : Nat)
  | aggregateSubBn
  | saveCheckpoint (epoch : Nat)
  | evalPass (epoch : Nat)
  deriving DecidableEq

/-- Lines 570-607 of `train`: the per-epoch body after the multigrid update:
run `train_epoch`, then recompute precise BN statistics when
`(is_checkp_epoch or is_eval_epoch) and cfg.BN.USE_PRECISE_STATS and
len(get_bn_modules(model)) > 0`, passing
`min(cfg.BN.NUM_BATCHES_PRECISE, len(precise_bn_loader))` iterations; then
aggregate sub-BN stats, save a checkpoint when scheduled, and evaluate when
scheduled. Returns the epoch's event trace and the resulting BN
statistics. -/
def epochBody (cfg : Config) (epoch : Nat) (isCheckpEpoch isEvalEpoch : Bool)
    (bnModuleCount : Nat) (loaderStats : List (Rat × Rat)) (stats : Rat × Rat) :
    List EpochEvent × (Rat × Rat) :=
  if (isCheckpEpoch || isEvalEpoch) && cfg.usePreciseStats && decide (0 < bnModuleCount) then
    ([EpochEvent.trainPass epoch,
      EpochEvent.preciseBN (calculate_and_update_precise_bn loaderStats stats
        (min cfg.numBatchesPrecise loaderStats.length)).2,
      EpochEvent.aggregateSubBn]
       ++ (if isCheckpEpoch then [EpochEvent.saveCheckpoint epoch] else [])
       ++ (if isEvalEpoch then [EpochEvent.evalPass epoch] else []),
     (calculate_and_update_precise_bn loaderStats stats
       (min cfg.numBatchesPrecise loaderStats.length)).1)
  else
    ([EpochEvent.trainPass epoch, EpochEvent.aggregateSubBn]
       ++ (if isCheckpEpoch then [EpochEvent.saveCheckpoint epoch] else [])
       ++ (if isEvalEpoch then [EpochEvent.evalPass epoch] else []),
     stats)

/-- Line 545: `for cur_epoch in range(start_epoch, cfg.SOLVER.MAX_EPOCH)` —
the epochs the training loop of `train` executes, in order. -/
def trainLoopEpochs (cfg : Config) (startEpoch : Nat) : List Nat :=
  List.range' startEpoch (cfg.maxEpoch - startEpoch)

/-- Train-meter state: the per-epoch accumulator of per-iteration statistics
(each batch contributes one abstract statistic) and the log of
`log_epoch_stats` snapshots `(epoch, statistics at log time)`. -/
structure MeterState where
  stats : List Rat
  logged : List (Nat × List Rat)
  deriving DecidableEq

/-- `train_meter.update_stats(...)` (line 185): append this iteration's
statistic to the epoch accumulator. -/
def meterUpdate (s : Rat) (m : MeterState) : MeterState :=
  { m with stats := m.stats ++ [s] }

/-- `train_meter.log_epoch_stats(cur_epoch)` (line 218): consume the
accumulator by recording the snapshot visible at log time. -/
def meterLogEpoch (e : Nat) (m : MeterState) : MeterState :=
  { m with logged := m.logged ++ [(e, m.stats)] }

/-- `train_meter.reset()` (line 219): clear the accumulator. -/
def meterReset (m : MeterState) : MeterState :=
  { m with stats := [] }

/-- The meter effect of one `train_epoch` call: `update_stats` once per
batch, then `log_epoch_stats`, then `reset` (lines 185, 218, 219). -/
def trainEpochMeter (e : Nat) (batchStats : List Rat) (m : MeterState) : MeterState :=
  meterReset (meterLogEpoch e (batchStats.foldl (fun acc s => meterUpdate s acc) m))

/-- The meter threaded through the epoch loop of `train`: `statsOf e` gives
epoch `e`'s per-batch statistics. -/
def trainLoopMeter (statsOf : Nat → List Rat) (startEpoch maxEpoch : Nat)
    (m : MeterState) : MeterState :=
  (List.range' startEpoch (maxEpoch - startEpoch)).foldl
    (fun acc e => trainEpochMeter e (statsOf e) acc) m

/-- Concrete configurations and states used by the closed witness and
counterexample theorems. -/
def cfgSyncEq : Config := ⟨2, 4, 8, false, false, 0, 0⟩

def cfgSyncEqMP : Config := ⟨2, 4, 8, true, false, 0, 0⟩

def cfgAcc : Config := ⟨1, 1, 2, false, false, 0, 0⟩

def cfgAccMP : Config := ⟨1, 1, 2, true, false, 0, 0⟩

def cfgFloor : Config := ⟨1, 3, 10, false, false, 0, 0⟩

def cfgDiv : Config := ⟨1, 2, 8, false, false, 0, 0⟩

def cfgBN : Config := ⟨1, 1, 1, false, true, 3, 0⟩

def cfgEpochs : Config := ⟨1, 1, 1, false, false, 0, 5⟩

def paramW : Param := ⟨"w", 1, some 6⟩

def paramU : Param := ⟨"u", 2, none⟩

def stW : TrainState := ⟨[paramW, paramU], ⟨1, false⟩⟩

def statsOfW : Nat → List Rat := fun e => [(e : Rat), (e : Rat) + 1]

def gradsW : List (Option Rat) := [some 2, none]

def batchesW : List (List (Option Rat)) := [[some 1, some 1], [some 2, none], [some 3, none]]

def bnLoaderW : List (Rat × Rat) := [(1, 2), (3, 4)]

def bnStatsW : Rat × Rat := (0, 0)

def meterInit : MeterState := ⟨[], []⟩

/-! ### Helper lemmas -/

theorem zeroGradParam_value (p : Param) : (zeroGradParam p).value = p.value := by
  rfl

theorem zeroGrad_value_map (ps : List Param) :
    (zeroGrad ps).map Param.value = ps.map Param.value := by
  induction ps with
  | nil => rfl
  | cons p t ih => simp [zeroGrad, zeroGradParam] at ih ⊢

theorem zeroGradParam_idem (p : Param) : zeroGradParam (zeroGradParam p) = zeroGradParam p := by
  cases p with
  | mk n v g => cases g <;> rfl

theorem zeroGrad_idem (ps : List Param) : zeroGrad (zeroGrad ps) = zeroGrad ps := by
  induction ps with
  | nil => rfl
  | cons p t ih => simp [zeroGrad] at ih ⊢; exact ⟨zeroGradParam_idem p, ih⟩

theorem backward_value_map (g : List (Option Rat)) (ps : List Param) :
    (backward g ps).map Param.value = ps.map Param.value := by
  induction ps generalizing g with
  | nil => cases g <;> rfl
  | cons p t ih =>
    cases g with
    | nil => rfl
    | cons og gs => cases og <;> simpa [backward] using ih gs

theorem trainIter_accum_events_nonfinal (cfg : Config) (lr : Rat) (i : Nat)
    (g : List (Option Rat)) (st : TrainState)
    (hlt : curGlobalBatchSize cfg < cfg.globalBatchSize)
    (hne : (i + 1) % numIters cfg ≠ 0) :
    (trainIter cfg lr i g st).1 =
      (if i = 0 then [Event.zeroGrad] else [])
        ++ [Event.forward true, Event.backward true cfg.useMixedPrecision] := by
  simp [trainIter, accumStep, Nat.not_le.mpr hlt, hne]

theorem trainIter_accum_events_final (cfg : Config) (lr : Rat) (i : Nat)
    (g : List (Option Rat)) (st : TrainState)
    (hlt : curGlobalBatchSize cfg < cfg.globalBatchSize)
    (hfin : (i + 1) % numIters cfg = 0) :
    (trainIter cfg lr i g st).1 =
      (if i = 0 then [Event.zeroGrad] else [])
        ++ (if cfg.useMixedPrecision then
              [Event.forward false, Event.backward false true, Event.unscale,
               Event.divideGrads (numIters cfg), Event.scalerStep, Event.scalerUpdate,
               Event.zeroGrad]
            else
              [Event.forward false, Event.backward false false,
               Event.divideGrads (numIters cfg), Event.optStep, Event.zeroGrad]) := by
  cases hm : cfg.useMixedPrecision <;>
    simp [trainIter, accumStep, Nat.not_le.mpr hlt, hfin, hm]

theorem trainIter_nonfinal_preserves (cfg : Config) (lr : Rat) (i : Nat)
    (g : List (Option Rat)) (st : TrainState)
    (hlt : curGlobalBatchSize cfg < cfg.globalBatchSize)
    (hne : (i + 1) % numIters cfg ≠ 0) :
    (trainIter cfg lr i g st).2.params.map Param.value = st.params.map Param.value ∧
    (trainIter cfg lr i g st).2.scaler = st.scaler := by
  have h1 : (trainIter cfg lr i g st).2 =
      { params := (if cfg.useMixedPrecision then
            backward (scaledContrib st.scaler g)
              (if i = 0 then zeroGrad st.params else st.params)
          else backward g (if i = 0 then zeroGrad st.params else st.params)),
        scaler := st.scaler } := by
    simp [trainIter, accumStep, Nat.not_le.mpr hlt, hne]
  rw [h1]
  refine ⟨?_, rfl⟩
  cases hm : cfg.useMixedPrecision <;> by_cases h0 : i = 0 <;>
    simp [hm, h0, backward_value_map, zeroGrad_value_map]

theorem runItersFrom_append (cfg : Config) (lr : Rat) (l1 l2 : List (List (Option Rat)))
    (i : Nat) (st : TrainState) :
    runItersFrom cfg lr i (l1 ++ l2) st =
      ((runItersFrom cfg lr i l1 st).1
         ++ (runItersFrom cfg lr (i + l1.length) l2 (runItersFrom cfg lr i l1 st).2).1,
       (runItersFrom cfg lr (i + l1.length) l2 (runItersFrom cfg lr i l1 st).2).2) := by
  induction l1 generalizing i st with
  | nil => simp [runItersFrom]
  | cons b rest ih =>
    have lhs : runItersFrom cfg lr i ((b :: rest) ++ l2) st =
        ((trainIter cfg lr i b st).1
           ++ (runItersFrom cfg lr (i + 1) (rest ++ l2) (trainIter cfg lr i b st).2).1,
         (runItersFrom cfg lr (i + 1) (rest ++ l2) (trainIter cfg lr i b st).2).2) := rfl
    have rhs : runItersFrom cfg lr i (b :: rest) st =
        ((trainIter cfg lr i b st).1
           ++ (runItersFrom cfg lr (i + 1) rest (trainIter cfg lr i b st).2).1,
         (runItersFrom cfg lr (i + 1) rest (trainIter cfg lr i b st).2).2) := rfl
    have h : i + (b :: rest).length = i + 1 + rest.length := by
      simp only [List.length_cons]
      omega
    rw [lhs, rhs, ih, h]
    simp [List.append_assoc]

theorem runItersFrom_tail_preserves (cfg : Config) (lr : Rat)
    (hlt : curGlobalBatchSize cfg < cfg.globalBatchSize)
    (l : List (List (Option Rat))) (i : Nat) (st : TrainState)
    (h : ∀ j, j < l.length → (i + j + 1) % numIters cfg ≠ 0) :
    (runItersFrom cfg lr i l st).2.params.map Param.value = st.params.map Param.value ∧
    (runItersFrom cfg lr i l st).2.scaler = st.scaler := by
  induction l generalizing i st with
  | nil => simp [runItersFrom]
  | cons b rest ih =>
    have h0 : (i + 0 + 1) % numIters cfg ≠ 0 := h 0 (by simp)
    have hp := trainIter_nonfinal_preserves cfg lr i b st hlt (by simpa using h0)
    have hr := ih (i + 1) (trainIter cfg lr i b st).2 (by
      intro j hj
      have hh := h (j + 1) (by simpa using Nat.succ_lt_succ hj)
      have e : i + 1 + j + 1 = i + (j + 1) + 1 := by omega
      rw [e]
      exact hh)
    refine ⟨?_, ?_⟩
    · show (runItersFrom cfg lr (i + 1) rest (trainIter cfg lr i b st).2).2.params.map
        Param.value = st.params.map Param.value
      rw [hr.1, hp.1]
    · show (runItersFrom cfg lr (i + 1) rest (trainIter cfg lr i b st).2).2.scaler = st.scaler
      rw [hr.2, hp.2]

theorem tail_mod_ne (n q r i : Nat) (hrn : r < n) (hB : q * n ≤ i) (hi : i < q * n + r) :
    (i + 1) % n ≠ 0 := by
  have hij : q * n + (i - q * n) = i := Nat.add_sub_cancel' hB
  have hj : i - q * n < r := by
    have hx : q * n + (i - q * n) < q * n + r := by rw [hij]; exact hi
    exact Nat.lt_of_add_lt_add_left hx
  have he : n * q + (i - q * n + 1) = i + 1 := by
    rw [Nat.mul_comm n q, ← Nat.add_assoc, hij]
  rw [← he, Nat.mul_add_mod,
    Nat.mod_eq_of_lt (Nat.lt_of_lt_of_le (Nat.succ_lt_succ hj) (Nat.succ_le_of_lt hrn))]
  exact Nat.succ_ne_zero _

theorem numIters_pos (cfg : Config) (hpos : 0 < curGlobalBatchSize cfg)
    (hlt : curGlobalBatchSize cfg < cfg.globalBatchSize) : 0 < numIters cfg :=
  (Nat.le_div_iff_mul_le hpos).mpr (by simpa using Nat.le_of_lt hlt)

theorem meter_fold_update (bs : List Rat) (m : MeterState) :
    bs.foldl (fun acc s => meterUpdate s acc) m = ⟨m.stats ++ bs, m.logged⟩ := by
  induction bs generalizing m with
  | nil => simp
  | cons s rest ih =>
    simp only [List.foldl_cons]
    rw [ih]
    simp [meterUpdate]

theorem trainEpochMeter_spec (e : Nat) (bs : List Rat) (m : MeterState) :
    trainEpochMeter e bs m = ⟨[], m.logged ++ [(e, m.stats ++ bs)]⟩ := by
  simp [trainEpochMeter, meter_fold_update, meterLogEpoch, meterReset]

theorem meterLoop_list (f : Nat → List Rat) (l : List Nat) (m : MeterState)
    (h : m.stats = []) :
    l.foldl (fun acc e => trainEpochMeter e (f e) acc) m =
      ⟨[], m.logged ++ l.map (fun e => (e, f e))⟩ := by
  induction l generalizing m with
  | nil => cases m with | mk s lg => simp at h; simp [h]
  | cons e rest ih =>
    simp only [List.foldl_cons]
    rw [trainEpochMeter_spec, h]
    rw [ih ⟨[], m.logged ++ [(e, [] ++ f e)]⟩ rfl]
    simp

theorem calc_bn_passes (L : List (Rat × Rat)) (st : Rat × Rat) (n : Nat) :
    (calculate_and_update_precise_bn L st n).2 = min n L.length := by
  simp [calculate_and_update_precise_bn, update_bn_stats]

/-! ### Claim theorems -/

/-- C1: in the accumulation path of `train_epoch` (actual global batch size
strictly below `GLOBAL_BATCH_SIZE`), iterations are grouped into blocks of
`num_iters`: an iteration with `(i + 1) % num_iters != 0` runs forward and
backward inside `model.no_sync()` (local accumulation only, no division, no
step, no zeroing except at iteration 0); an iteration with
`(i + 1) % num_iters == 0` runs the backward with synchronization enabled,
then divides every present gradient by `num_iters`, then takes the optimizer
step (through the scaler under mixed precision) and zeroes the gradients,
in that order. -/
theorem c1_accumulation_blocks (cfg : Config) (lr : Rat) (i : Nat)
    (g : List (Option Rat)) (st : TrainState)
    (hlt : curGlobalBatchSize cfg < cfg.globalBatchSize) :
    ((i + 1) % numIters cfg ≠ 0 →
      (trainIter cfg lr i g st).1 =
        (if i = 0 then [Event.zeroGrad] else [])
          ++ [Event.forward true, Event.backward true cfg.useMixedPrecision]) ∧
    ((i + 1) % numIters cfg = 0 →
      (trainIter cfg lr i g st).1 =
        (if i = 0 then [Event.zeroGrad] else [])
          ++ (if cfg.useMixedPrecision then
                [Event.forward false, Event.backward false true, Event.unscale,
                 Event.divideGrads (numIters cfg), Event.scalerStep, Event.scalerUpdate,
                 Event.zeroGrad]
              else
                [Event.forward false, Event.backward false false,
                 Event.divideGrads (numIters cfg), Event.optStep, Event.zeroGrad])) :=
  ⟨fun hne => trainIter_accum_events_nonfinal cfg lr i g st hlt hne,
   fun hfin => trainIter_accum_events_final cfg lr i g st hlt hfin⟩

theorem c1_witness :
    (2 % numIters cfgAcc = 0 ∧
      (trainIter cfgAcc 1 1 gradsW stW).1 =
        (if 1 = 0 then [Event.zeroGrad] else [])
          ++ (if cfgAcc.useMixedPrecision then
                [Event.forward false, Event.backward false true, Event.unscale,
                 Event.divideGrads (numIters cfgAcc), Event.scalerStep, Event.scalerUpdate,
                 Event.zeroGrad]
              else
                [Event.forward false, Event.backward false false,
                 Event.divideGrads (numIters cfgAcc), Event.optStep, Event.zeroGrad])) ∧
    (1 % numIters cfgAcc ≠ 0 ∧
      (trainIter cfgAcc 1 0 gradsW stW).1 =
        (if 0 = 0 then [Event.zeroGrad] else [])
          ++ [Event.forward true, Event.backward true cfgAcc.useMixedPrecision]) :=
  ⟨⟨by decide, (c1_accumulation_blocks cfgAcc 1 1 gradsW stW (by decide)).2 (by decide)⟩,
   ⟨by decide, (c1_accumulation_blocks cfgAcc 1 0 gradsW stW (by decide)).1 (by decide)⟩⟩

/-- C2: when the target batch size equals the actual batch size
(`GLOBAL_BATCH_SIZE = NUM_SHARDS * TRAIN.BATCH_SIZE`, so `num_iters = 1`),
every iteration of `train_epoch`, whatever its index, is exactly the
synchronized path of lines 94-108 — forward, loss, backward, optimizer step
(through the gradient scaler when mixed precision is enabled) — and its
state effect coincides with the spec's per-iteration synchronized step with
no accumulation. -/
theorem c2_reduces_to_sync (cfg : Config) (lr : Rat) (i : Nat)
    (g : List (Option Rat)) (st : TrainState)
    (heq : curGlobalBatchSize cfg = cfg.globalBatchSize)
    (hpos : 0 < curGlobalBatchSize cfg) :
    numIters cfg = 1 ∧
    trainIter cfg lr i g st = syncStep cfg lr g st ∧
    (trainIter cfg lr i g st).2 = specSyncStep cfg lr g st := by
  have hn : numIters cfg = 1 := by
    rw [numIters, ← heq]
    exact Nat.div_self hpos
  have hle : cfg.globalBatchSize ≤ curGlobalBatchSize cfg := le_of_eq heq.symm
  have hit : trainIter cfg lr i g st = syncStep cfg lr g st := by
    simp [trainIter, hle]
  refine ⟨hn, hit, ?_⟩
  rw [hit]
  cases hm : cfg.useMixedPrecision <;> simp [syncStep, specSyncStep, hm]

theorem c2_witness :
    numIters cfgSyncEq = 1 ∧
    trainIter cfgSyncEq 1 3 gradsW stW = syncStep cfgSyncEq 1 gradsW stW ∧
    (trainIter cfgSyncEq 1 3 gradsW stW).2 = specSyncStep cfgSyncEq 1 gradsW stW :=
  c2_reduces_to_sync cfgSyncEq 1 3 gradsW stW (by decide) (by decide)

/-- C3 counterexample: with `GLOBAL_BATCH_SIZE = 10` and
`NUM_SHARDS * TRAIN.BATCH_SIZE = 3` (both positive), the code computes
`num_iters = 10 // 3 = 3`, and `3 * 3 = 9 ≠ 10`: the claim that
`num_iters * actual = target` for every pair of positive sizes is false. -/
theorem c3_counterexample :
    0 < curGlobalBatchSize cfgFloor ∧ 0 < cfgFloor.globalBatchSize ∧
    ¬ (numIters cfgFloor * curGlobalBatchSize cfgFloor = cfgFloor.globalBatchSize) := by
  decide

/-- C3 (amended): `train_epoch` computes `num_iters` as the floor quotient
`target // actual` of `cfg.GLOBAL_BATCH_SIZE` by
`cfg.NUM_SHARDS * cfg.TRAIN.BATCH_SIZE`; when the actual size is positive
and divides the target, `num_iters * actual = target`. -/
theorem c3_num_iters_floor (cfg : Config)
    (hpos : 0 < curGlobalBatchSize cfg)
    (hdvd : curGlobalBatchSize cfg ∣ cfg.globalBatchSize) :
    numIters cfg = cfg.globalBatchSize / curGlobalBatchSize cfg ∧
    numIters cfg * curGlobalBatchSize cfg = cfg.globalBatchSize :=
  ⟨rfl, Nat.div_mul_cancel hdvd⟩

theorem c3_witness :
    numIters cfgDiv = cfgDiv.globalBatchSize / curGlobalBatchSize cfgDiv ∧
    numIters cfgDiv * curGlobalBatchSize cfgDiv = cfgDiv.globalBatchSize :=
  c3_num_iters_floor cfgDiv (by decide) (by decide)

/-- C4: in the accumulation path with mixed precision enabled, on a
block-final (synchronized) iteration the event order is: synchronized
backward, then `loss_scaler.unscale_`, then the per-parameter division by
`num_iters`, then `loss_scaler.step` and `loss_scaler.update`, then
zeroing — so unscaling precedes the division and the scaler's step/update
follow it. -/
theorem c4_unscale_before_divide (cfg : Config) (lr : Rat) (i : Nat)
    (g : List (Option Rat)) (st : TrainState)
    (hlt : curGlobalBatchSize cfg < cfg.globalBatchSize)
    (hmp : cfg.useMixedPrecision = true)
    (hfin : (i + 1) % numIters cfg = 0) :
    (trainIter cfg lr i g st).1 =
      (if i = 0 then [Event.zeroGrad] else [])
        ++ [Event.forward false, Event.backward false true, Event.unscale,
            Event.divideGrads (numIters cfg), Event.scalerStep, Event.scalerUpdate,
            Event.zeroGrad] := by
  simp [trainIter, accumStep, Nat.not_le.mpr hlt, hfin, hmp]

theorem c4_witness :
    (trainIter cfgAccMP 1 1 gradsW stW).1 =
      (if 1 = 0 then [Event.zeroGrad] else [])
        ++ [Event.forward false, Event.backward false true, Event.unscale,
            Event.divideGrads (numIters cfgAccMP), Event.scalerStep, Event.scalerUpdate,
            Event.zeroGrad] :=
  c4_unscale_before_divide cfgAccMP 1 1 gradsW stW (by decide) (by decide) (by decide)

/-- C5: the gradient-division loop is total and positional: it preserves
the parameter list's length; a parameter whose gradient is absent is
returned unchanged (no division); a parameter with a present gradient `gq`
comes back with gradient `gq / num_iters`. -/
theorem c5_skip_absent_grads (n : Nat) (ps : List Param) :
    (divideGrads n ps).length = ps.length ∧
    (∀ (i : Nat) (p : Param), ps[i]? = some p → p.grad = none →
      (divideGrads n ps)[i]? = some p) ∧
    (∀ (i : Nat) (p : Param) (gq : Rat), ps[i]? = some p → p.grad = some gq →
      (divideGrads n ps)[i]? = some { p with grad := some (gq / (n : Rat)) }) := by
  refine ⟨by simp [divideGrads], ?_, ?_⟩
  · intro i p hp hg
    rw [divideGrads, List.getElem?_map, hp]
    simp [divideParamGrad, hg]
  · intro i p gq hp hg
    rw [divideGrads, List.getElem?_map, hp]
    simp [divideParamGrad, hg]

theorem c5_witness :
    (divideGrads 3 [paramW, paramU]).length = [paramW, paramU].length ∧
    (divideGrads 3 [paramW, paramU])[1]? = some paramU ∧
    (divideGrads 3 [paramW, paramU])[0]? =
      some { paramW with grad := some ((6 : Rat) / ((3 : Nat) : Rat)) } :=
  ⟨(c5_skip_absent_grads 3 [paramW, paramU]).1,
   (c5_skip_absent_grads 3 [paramW, paramU]).2.1 1 paramU rfl rfl,
   (c5_skip_absent_grads 3 [paramW, paramU]).2.2 0 paramW 6 rfl rfl⟩

/-- C6: in the epoch body of `train`, precise BN statistics are recomputed
if and only if (the epoch is a checkpoint epoch or an evaluation epoch) and
`cfg.BN.USE_PRECISE_STATS` holds and the model has at least one BN module;
when the recomputation runs, it comes after the training pass and performs
exactly `min cfg.BN.NUM_BATCHES_PRECISE (length of the precise-BN loader)`
forward-only passes. -/
theorem c6_precise_bn_schedule (cfg : Config) (e : Nat) (c v : Bool) (b : Nat)
    (L : List (Rat × Rat)) (st : Rat × Rat) :
    ((∃ k, EpochEvent.preciseBN k ∈ (epochBody cfg e c v b L st).1) ↔
      ((c = true ∨ v = true) ∧ cfg.usePreciseStats = true ∧ 0 < b)) ∧
    (∀ k, EpochEvent.preciseBN k ∈ (epochBody cfg e c v b L st).1 →
      k = min cfg.numBatchesPrecise L.length) ∧
    (∀ k, EpochEvent.preciseBN k ∈ (epochBody cfg e c v b L st).1 →
      (epochBody cfg e c v b L st).1.head? = some (EpochEvent.trainPass e)) := by
  have hmin : (calculate_and_update_precise_bn L st
      (min cfg.numBatchesPrecise L.length)).2 = min cfg.numBatchesPrecise L.length := by
    rw [calc_bn_passes]
    exact min_eq_left (min_le_right cfg.numBatchesPrecise L.length)
  by_cases hb : 0 < b <;> cases c <;> cases v <;> cases hps : cfg.usePreciseStats <;>
    simp [epochBody, hb, hps, hmin]

theorem c6_witness :
    ((∃ k, EpochEvent.preciseBN k ∈
        (epochBody cfgBN 4 true false 1 bnLoaderW bnStatsW).1) ↔
      ((true = true ∨ false = true) ∧ cfgBN.usePreciseStats = true ∧ 0 < 1)) ∧
    ((epochBody cfgBN 4 true false 1 bnLoaderW bnStatsW).1.head? =
      some (EpochEvent.trainPass 4)) ∧
    (min cfgBN.numBatchesPrecise bnLoaderW.length =
      min cfgBN.numBatchesPrecise bnLoaderW.length) :=
  ⟨(c6_precise_bn_schedule cfgBN 4 true false 1 bnLoaderW bnStatsW).1,
   (c6_precise_bn_schedule cfgBN 4 true false 1 bnLoaderW bnStatsW).2.2
     (min cfgBN.numBatchesPrecise bnLoaderW.length) (by decide),
   rfl⟩

/-- C7: precise-statistics recomputation invoked with zero batches (an
empty precise-BN loader, hence a bounded iteration count of zero) leaves
the normalization statistics unchanged, both through the direct
`calculate_and_update_precise_bn` call and through the epoch body. -/
theorem c7_zero_batches_frame (cfg : Config) (e : Nat) (c v : Bool) (b : Nat)
    (st s : Rat × Rat) (n : Nat) :
    (epochBody cfg e c v b [] st).2 = st ∧
    (calculate_and_update_precise_bn [] s n).1 = s := by
  constructor
  · unfold epochBody
    split <;> simp [calculate_and_update_precise_bn, update_bn_stats]
  · simp [calculate_and_update_precise_bn, update_bn_stats]

/-- C8: the epoch loop of `train` runs `cur_epoch` over exactly the epochs
from `start_epoch` up to but not including `cfg.SOLVER.MAX_EPOCH`: the list
of executed epochs has length `MAX_EPOCH - start_epoch`, contains an epoch
iff it lies in that half-open range, runs each such epoch exactly once, and
runs no epoch at or beyond `MAX_EPOCH`. -/
theorem c8_epoch_range (cfg : Config) (s : Nat) (h : s ≤ cfg.maxEpoch) :
    (trainLoopEpochs cfg s).length = cfg.maxEpoch - s ∧
    (∀ e, e ∈ trainLoopEpochs cfg s ↔ (s ≤ e ∧ e < cfg.maxEpoch)) ∧
    (∀ e, s ≤ e → e < cfg.maxEpoch → (trainLoopEpochs cfg s).count e = 1) ∧
    (∀ e, cfg.maxEpoch ≤ e → e ∉ trainLoopEpochs cfg s) := by
  have hmem : ∀ e, e ∈ trainLoopEpochs cfg s ↔ (s ≤ e ∧ e < cfg.maxEpoch) := by
    intro e
    rw [trainLoopEpochs, List.mem_range'_1, Nat.add_sub_cancel' h]
  refine ⟨by simp [trainLoopEpochs], hmem, ?_, ?_⟩
  · intro e h1 h2
    exact List.count_eq_one_of_mem (List.nodup_range' s (cfg.maxEpoch - s) 1 Nat.one_pos)
      ((hmem e).mpr ⟨h1, h2⟩)
  · intro e he hc
    exact absurd ((hmem e).mp hc).2 (Nat.not_lt.mpr he)

theorem c8_witness :
    (trainLoopEpochs cfgEpochs 1).length = cfgEpochs.maxEpoch - 1 ∧
    (2 ∈ trainLoopEpochs cfgEpochs 1 ↔ (1 ≤ 2 ∧ 2 < cfgEpochs.maxEpoch)) ∧
    (trainLoopEpochs cfgEpochs 1).count 3 = 1 ∧
    7 ∉ trainLoopEpochs cfgEpochs 1 :=
  ⟨(c8_epoch_range cfgEpochs 1 (by decide)).1,
   (c8_epoch_range cfgEpochs 1 (by decide)).2.1 2,
   (c8_epoch_range cfgEpochs 1 (by decide)).2.2.1 3 (by decide) (by decide),
   (c8_epoch_range cfgEpochs 1 (by decide)).2.2.2 7 (by decide)⟩

/-- C9: threading the train meter through the epoch loop starting from an
empty accumulator, every `log_epoch_stats` snapshot records exactly the
statistics accumulated during its own epoch — the accumulator holds only
the current epoch's statistics at the moment it is logged — and the
accumulator leaves every epoch (and the loop) empty again. -/
theorem c9_meter_per_epoch (f : Nat → List Rat) (s mx : Nat) (m : MeterState)
    (h : m.stats = []) :
    (trainLoopMeter f s mx m).stats = [] ∧
    (trainLoopMeter f s mx m).logged =
      m.logged ++ (List.range' s (mx - s)).map (fun e => (e, f e)) := by
  have hl := meterLoop_list f (List.range' s (mx - s)) m h
  rw [trainLoopMeter, hl]
  exact ⟨rfl, rfl⟩

theorem c9_witness :
    (trainLoopMeter statsOfW 1 3 meterInit).stats = [] ∧
    (trainLoopMeter statsOfW 1 3 meterInit).logged =
      [(1, statsOfW 1), (2, statsOfW 2)] :=
  ⟨(c9_meter_per_epoch statsOfW 1 3 meterInit rfl).1,
   ((c9_meter_per_epoch statsOfW 1 3 meterInit rfl).2).trans rfl⟩

theorem tail_mod_ne_len (n len i : Nat) (hn : 0 < n) (hB : len / n * n ≤ i)
    (hi : i < len) : (i + 1) % n ≠ 0 := by
  have hq : len / n * n + len % n = len := by
    rw [Nat.mul_comm]
    exact Nat.div_add_mod len n
  exact tail_mod_ne n (len / n) (len % n) i (Nat.mod_lt len hn) hB (by rw [hq]; exact hi)

/-- C10: in the accumulation path, gradients are zeroed only at the first
iteration of the epoch and immediately after each synchronized optimizer
step; the trailing iterations of a final partial block (indices at or
beyond `(data_size / num_iters) * num_iters`) take no optimizer step; the
parameter values produced by the whole epoch therefore equal those produced
by the complete blocks alone, the trailing accumulated gradients never
being applied; and the first iteration of an epoch behaves identically
whether or not leftover gradients from a previous epoch are present,
because it zeroes them before any backward. -/
theorem c10_trailing_block_discarded (cfg : Config) (lr : Rat)
    (batches : List (List (Option Rat))) (st : TrainState)
    (hlt : curGlobalBatchSize cfg < cfg.globalBatchSize)
    (hpos : 0 < curGlobalBatchSize cfg)
    (hnd : batches.length % numIters cfg ≠ 0) :
    (∀ (i : Nat) (g : List (Option Rat)) (s : TrainState),
      Event.zeroGrad ∈ (trainIter cfg lr i g s).1 ↔
        (i = 0 ∨ (i + 1) % numIters cfg = 0)) ∧
    (∀ (i : Nat) (g : List (Option Rat)) (s : TrainState),
      batches.length / numIters cfg * numIters cfg ≤ i → i < batches.length →
      Event.optStep ∉ (trainIter cfg lr i g s).1 ∧
      Event.scalerStep ∉ (trainIter cfg lr i g s).1) ∧
    ((trainEpoch cfg lr batches st).2.params.map Param.value =
      (trainEpoch cfg lr
        (batches.take (batches.length / numIters cfg * numIters cfg)) st).2.params.map
        Param.value) ∧
    (∀ (g : List (Option Rat)) (s : TrainState),
      trainIter cfg lr 0 g s = trainIter cfg lr 0 g ⟨zeroGrad s.params, s.scaler⟩) := by
  have hn : 0 < numIters cfg := numIters_pos cfg hpos hlt
  refine ⟨?_, ?_, ?_, ?_⟩
  · intro i g s
    by_cases hf : (i + 1) % numIters cfg = 0
    · rw [trainIter_accum_events_final cfg lr i g s hlt hf]
      cases hm : cfg.useMixedPrecision <;> by_cases h0 : i = 0 <;> simp [h0, hf]
    · rw [trainIter_accum_events_nonfinal cfg lr i g s hlt hf]
      by_cases h0 : i = 0 <;> simp [h0, hf]
  · intro i g s hB hi
    have hne : (i + 1) % numIters cfg ≠ 0 :=
      tail_mod_ne_len (numIters cfg) batches.length i hn hB hi
    rw [trainIter_accum_events_nonfinal cfg lr i g s hlt hne]
    constructor <;> by_cases h0 : i = 0 <;> simp [h0]
  · have hBle : batches.length / numIters cfg * numIters cfg ≤ batches.length :=
      Nat.div_mul_le_self _ _
    have hlen : (batches.take (batches.length / numIters cfg * numIters cfg)).length =
        batches.length / numIters cfg * numIters cfg := by
      rw [List.length_take]
      exact Nat.min_eq_left hBle
    have hcond : ∀ j,
        j < (batches.drop (batches.length / numIters cfg * numIters cfg)).length →
        (0 + batches.length / numIters cfg * numIters cfg + j + 1) % numIters cfg ≠ 0 := by
      intro j hj
      rw [List.length_drop] at hj
      rw [Nat.zero_add]
      exact tail_mod_ne_len (numIters cfg) batches.length
        (batches.length / numIters cfg * numIters cfg + j) hn
        (Nat.le_add_right _ _) (by
          have h2 := Nat.add_lt_of_lt_sub hj
          rw [Nat.add_comm] at h2
          exact h2)
    have key : trainEpoch cfg lr batches st =
        runItersFrom cfg lr 0
          (batches.take (batches.length / numIters cfg * numIters cfg)
            ++ batches.drop (batches.length / numIters cfg * numIters cfg)) st := by
      rw [List.take_append_drop]
      rfl
    have hpres := runItersFrom_tail_preserves cfg lr hlt
      (batches.drop (batches.length / numIters cfg * numIters cfg))
      (0 + batches.length / numIters cfg * numIters cfg)
      (runItersFrom cfg lr 0
        (batches.take (batches.length / numIters cfg * numIters cfg)) st).2 hcond
    calc (trainEpoch cfg lr batches st).2.params.map Param.value
        = (runItersFrom cfg lr
            (0 + batches.length / numIters cfg * numIters cfg)
            (batches.drop (batches.length / numIters cfg * numIters cfg))
            (runItersFrom cfg lr 0
              (batches.take (batches.length / numIters cfg * numIters cfg)) st).2).2.params.map
            Param.value := by
          rw [key, runItersFrom_append, hlen]
      _ = (runItersFrom cfg lr 0
            (batches.take (batches.length / numIters cfg * numIters cfg)) st).2.params.map
            Param.value := hpres.1
      _ = (trainEpoch cfg lr
            (batches.take (batches.length / numIters cfg * numIters cfg)) st).2.params.map
            Param.value := rfl
  · intro g s
    simp [trainIter, accumStep, Nat.not_le.mpr hlt, zeroGrad_idem]

theorem c10_witness :
    (Event.zeroGrad ∈ (trainIter cfgAcc 1 1 gradsW stW).1 ↔
      (1 = 0 ∨ (1 + 1) % numIters cfgAcc = 0)) ∧
    (Event.optStep ∉ (trainIter cfgAcc 1 2 gradsW stW).1 ∧
      Event.scalerStep ∉ (trainIter cfgAcc 1 2 gradsW stW).1) ∧
    ((trainEpoch cfgAcc 1 batchesW stW).2.params.map Param.value =
      (trainEpoch cfgAcc 1
        (batchesW.take (batchesW.length / numIters cfgAcc * numIters cfgAcc))
        stW).2.params.map Param.value) ∧
    (trainIter cfgAcc 1 0 gradsW stW =
      trainIter cfgAcc 1 0 gradsW ⟨zeroGrad stW.params, stW.scaler⟩) :=
  ⟨(c10_trailing_block_discarded cfgAcc 1 batchesW stW (by decide) (by decide)
      (by decide)).1 1 gradsW stW,
   (c10_trailing_block_discarded cfgAcc 1 batchesW stW (by decide) (by decide)
      (by decide)).2.1 2 gradsW stW (by decide) (by decide),
   (c10_trailing_block_discarded cfgAcc 1 batchesW stW (by decide) (by decide)
      (by decide)).2.2.1,
   (c10_trailing_block_discarded cfgAcc 1 batchesW stW (by decide) (by decide)
      (by decide)).2.2.2 gradsW stW⟩
